import Mathlib

/-!
Shallow embedding of the AI_Event_Tracker repository
(`app.py`, `crawl_webpage.py`, `crud.py`, `database.py`).

Python string operations (`strip`, `split`, `replace`, `lower`,
`startswith`, substring membership) are modelled as structurally
recursive functions over `List Char`, matching Python semantics, so
that every definition evaluates inside the kernel. `datetime.strptime`
with the formats `"%d.%m.%Y"` and `"%d.%m.%y"` is modelled by
`strptime_dmY` / `strptime_dmy` including CPython range checks
(1-2 digit day in 1..31, 1-2 digit month in 1..12, exactly 4 resp. 2
digit year, full-string match, calendar validity of the resulting
date, and the 69-pivot for two-digit years).

The SQLAlchemy-backed store (`crud.py`) is modelled as a list of rows;
`session.query(...).first()` under the default `autoflush=True` sees
rows added earlier in the same call, so the duplicate lookup runs
against committed rows plus pending adds. External effects (the
crawler, the OpenAI chat completion) are parameters: functions from
the request text to a reply (or to `Except` when the call can raise).
-/

/-- Characters stripped by Python `str.strip()` (the ASCII whitespace
relevant to this code base). -/
def pyWS (c : Char) : Bool :=
  c == ' ' || c == '\t' || c == '\n' || c == '\r' || c == '\x0b' || c == '\x0c'

/-- Python `s.strip()` on a character list. -/
def stripChars (s : List Char) : List Char :=
  ((s.dropWhile pyWS).reverse.dropWhile pyWS).reverse

/-- Python `s.strip()`. -/
def pyStrip (s : String) : String := String.mk (stripChars s.data)

/-- Does the second list start with the first one? -/
def leadsWith : List Char → List Char → Bool
  | [], _ => true
  | _ :: _, [] => false
  | p :: ps, c :: cs => p == c && leadsWith ps cs

/-- Python `s.startswith(p)`. -/
def pyStartsWith (s p : String) : Bool := leadsWith p.data s.data

/-- Substring occurrence on character lists (Python `p in s`). -/
def hasSub (p : List Char) : List Char → Bool
  | [] => leadsWith p []
  | c :: rest => leadsWith p (c :: rest) || hasSub p rest

/-- Python `p in s` for strings. -/
def pyContains (s p : String) : Bool := hasSub p.data s.data

/-- Python `s.split(sep)` (nonempty `sep`), fuel-driven so it reduces in
the kernel; `fuel = s.length + 1` always suffices because every step
consumes at least one character. -/
def splitFuel (sep : List Char) : Nat → List Char → List Char → List (List Char)
  | 0, s, acc => [acc.reverse ++ s]
  | _ + 1, [], acc => [acc.reverse]
  | f + 1, c :: rest, acc =>
    if leadsWith sep (c :: rest) then
      acc.reverse :: splitFuel sep f (List.drop (sep.length - 1) rest) []
    else
      splitFuel sep f rest (c :: acc)

/-- Python `s.split(sep)`. -/
def pySplit (s sep : String) : List String :=
  (splitFuel sep.data (s.data.length + 1) s.data []).map String.mk

/-- Python `s.replace(pat, rep)` (all occurrences, left to right,
non-overlapping), fuel-driven. -/
def replFuel (pat rep : List Char) : Nat → List Char → List Char
  | 0, s => s
  | _ + 1, [] => []
  | f + 1, c :: rest =>
    if !pat.isEmpty && leadsWith pat (c :: rest) then
      rep ++ replFuel pat rep f (List.drop (pat.length - 1) rest)
    else
      c :: replFuel pat rep f rest

/-- Python `s.replace(pat, rep)`. -/
def pyReplace (s pat rep : String) : String :=
  String.mk (replFuel pat.data rep.data (s.data.length + 1) s.data)

/-- ASCII lower-casing of one character (what Python `str.lower()` does
on the ASCII URLs and labels this code handles). -/
def lowChar (c : Char) : Char :=
  if 'A' ≤ c && c ≤ 'Z' then Char.ofNat (c.toNat + 32) else c

/-- Python `s.lower()`. -/
def pyLower (s : String) : String := String.mk (s.data.map lowChar)

/-- Decimal digit test. -/
def isDigitCh (c : Char) : Bool := '0' ≤ c && c ≤ '9'

/-- All characters are decimal digits. -/
def allDigits (l : List Char) : Bool := l.all isDigitCh

/-- Numeric value of a digit list. -/
def digitsToNat (l : List Char) : Nat :=
  l.foldl (fun n c => n * 10 + (c.toNat - 48)) 0

/-- Calendar date (time of day is not modelled; `datetime.strptime`
with these formats always yields midnight). -/
structure Date where
  year : Nat
  month : Nat
  day : Nat
  deriving DecidableEq, Repr

/-- Gregorian leap year. -/
def isLeap (y : Nat) : Bool :=
  (y % 4 == 0 && y % 100 != 0) || y % 400 == 0

/-- Length of a month. -/
def daysInMonth (y m : Nat) : Nat :=
  if m == 2 then (if isLeap y then 29 else 28)
  else if m == 4 || m == 6 || m == 9 || m == 11 then 30
  else 31

/-- Validity of (y, m, d) as a `datetime.date` (year 1..9999). -/
def validDate (y m d : Nat) : Bool :=
  decide (1 ≤ y) && decide (y ≤ 9999) && decide (1 ≤ m) && decide (m ≤ 12) &&
  decide (1 ≤ d) && decide (d ≤ daysInMonth y m)

/-- CPython `%d` directive: one or two digits with value 1..31. -/
def dayOK (c : List Char) : Bool :=
  allDigits c && decide (c.length = 1 ∨ c.length = 2) &&
  decide (1 ≤ digitsToNat c) && decide (digitsToNat c ≤ 31)

/-- CPython `%m` directive: one or two digits with value 1..12. -/
def monthOK (c : List Char) : Bool :=
  allDigits c && decide (c.length = 1 ∨ c.length = 2) &&
  decide (1 ≤ digitsToNat c) && decide (digitsToNat c ≤ 12)

/-- CPython `%Y` directive: exactly four digits. -/
def year4OK (c : List Char) : Bool := allDigits c && decide (c.length = 4)

/-- CPython `%y` directive: exactly two digits. -/
def year2OK (c : List Char) : Bool := allDigits c && decide (c.length = 2)

/-- Model of `datetime.strptime(s, "%d.%m.%Y")`: the whole string must
be day `.` month `.` four-digit year, and the triple must be a valid
calendar date, else `None` (a raised `ValueError` in Python). -/
def strptime_dmY (s : String) : Option Date :=
  match pySplit s "." with
  | [d, m, y] =>
    if dayOK d.data && monthOK m.data && year4OK y.data &&
       validDate (digitsToNat y.data) (digitsToNat m.data) (digitsToNat d.data) then
      some ⟨digitsToNat y.data, digitsToNat m.data, digitsToNat d.data⟩
    else none
  | _ => none

/-- Model of `datetime.strptime(s, "%d.%m.%y")`: two-digit year, with
CPython mapping 00..68 to 2000..2068 and 69..99 to 1969..1999. -/
def strptime_dmy (s : String) : Option Date :=
  match pySplit s "." with
  | [d, m, y] =>
    if dayOK d.data && monthOK m.data && year2OK y.data then
      let yy := digitsToNat y.data
      let yr := if yy ≤ 68 then 2000 + yy else 1900 + yy
      if validDate yr (digitsToNat m.data) (digitsToNat d.data) then
        some ⟨yr, digitsToNat m.data, digitsToNat d.data⟩
      else none
    else none
  | _ => none

/-- The try/except cascade of `app.py` lines 259-268: attempt
`"%d.%m.%Y"` first, on failure attempt `"%d.%m.%y"`, on failure of
both report no date (the code logs a warning and moves on). -/
def tryParseDate (s : String) : Option Date :=
  match strptime_dmY s with
  | some d => some d
  | none => strptime_dmy s

/-- Deny list of `crawl_webpage._should_include_page` (the regex
patterns are all literal strings, so `re.search` is substring
occurrence). -/
def denied_patterns : List String :=
  ["/impressum", "/kontakt", "/datenschutz", "/agb", "/newsletter",
   "/login", "/suche", "/search", "/vermietung", "/grundstueck",
   "/ausschreibung", "/verwaltung", "/rathaus", "/satzung", "/formulare",
   "/buergerservice", "/kontaktformular", "/kontakt-"]

/-- Allow list of `crawl_webpage._should_include_page` (literal
patterns again). -/
def allowed_signals : List String :=
  ["/veranstalt", "/event", "/konzert", "/markt", "/messe", "/theater",
   "/festival"]

/-- Model of `crawl_webpage._should_include_page`: reject an empty URL,
lower-case, reject on any deny-list hit, then accept exactly when an
allow-list pattern occurs. -/
def should_include_page (url : String) : Bool :=
  if url == "" then false
  else
    let u := pyLower url
    if denied_patterns.any (fun p => pyContains u p) then false
    else allowed_signals.any (fun p => pyContains u p)

/-- In-flight event record built by `app.parse_openai_response`
(`url`, `location`, `date` carry the initial values of the dictionary;
`title` is `none` until a `TITEL:` line is seen). -/
structure EventRec where
  title : Option String
  date : Option Date
  location : String
  url : String
  deriving DecidableEq, Repr

/-- Initial per-block dictionary of `app.py` lines 238-242. -/
def initEvent (source_url : String) : EventRec :=
  { title := none, date := none, location := "unbekannt", url := source_url }

/-- Stripped line starts with `TITEL:`. -/
def isTitelLine (raw : String) : Bool := pyStartsWith (pyStrip raw) "TITEL:"

/-- Stripped line starts with `DATUM:`. -/
def isDatumLine (raw : String) : Bool := pyStartsWith (pyStrip raw) "DATUM:"

/-- Stripped line starts with `ORT:`. -/
def isOrtLine (raw : String) : Bool := pyStartsWith (pyStrip raw) "ORT:"

/-- Value of a `TITEL:` line: `line.replace("TITEL:", "").strip()`
applied to the stripped line (`app.py` line 249). -/
def titelVal (raw : String) : String :=
  pyStrip (pyReplace (pyStrip raw) "TITEL:" "")

/-- Value of an `ORT:` line (`app.py` line 271). -/
def ortVal (raw : String) : String :=
  pyStrip (pyReplace (pyStrip raw) "ORT:" "")

/-- Effect of one `DATUM:` value on the current date (`app.py` lines
253-268): skip the value `unbekannt` (case-insensitive), split a range
on `-` keeping the start, then run the strptime cascade; a value that
parses overwrites the date, one that does not leaves it unchanged. -/
def datumValApply (d : Option Date) (date_str : String) : Option Date :=
  if pyLower date_str == "unbekannt" then d
  else
    let ds :=
      if pyContains date_str "-" && pyContains date_str "." then
        pyStrip ((pySplit date_str "-").headD "")
      else date_str
    match tryParseDate ds with
    | some dd => some dd
    | none => d

/-- Effect of one `DATUM:` line: extract the value
(`line.replace("DATUM:", "").strip()`) and apply it. -/
def datumApply (d : Option Date) (raw : String) : Option Date :=
  datumValApply d (pyStrip (pyReplace (pyStrip raw) "DATUM:" ""))

/-- Effect of one `ORT:` line (`app.py` lines 271-273): overwrite the
location unless the value is `unbekannt` (case-insensitive). -/
def ortApply (l : String) (raw : String) : String :=
  if pyLower (ortVal raw) == "unbekannt" then l else ortVal raw

/-- One iteration of the per-line loop of `app.py` lines 245-273:
strip the line, then dispatch on the label prefix (if/elif chain). -/
def processLine (e : EventRec) (raw : String) : EventRec :=
  if isTitelLine raw then { e with title := some (titelVal raw) }
  else if isDatumLine raw then { e with date := datumApply e.date raw }
  else if isOrtLine raw then { e with location := ortApply e.location raw }
  else e

/-- Per-block parse once the block has been cut into lines: fold the
line loop over the initial dictionary, then keep the event only when
`"title" in event and event["title"]` (`app.py` lines 276-277). -/
def parseBlockLines (source_url : String) (lines : List String) : Option EventRec :=
  let e := lines.foldl processLine (initEvent source_url)
  match e.title with
  | some t => if t ≠ "" then some e else none
  | none => none

/-- Per-block parse of `app.py` lines 230-277: skip blocks without
`EVENT_END`, cut at the first `EVENT_END`, strip, split into lines. -/
def parseBlock (source_url : String) (blk : String) : Option EventRec :=
  if pyContains blk "EVENT_END" then
    parseBlockLines source_url
      (pySplit (pyStrip (pyStrip ((pySplit blk "EVENT_END").headD ""))) "\n")
  else none

/-- Model of `app.parse_openai_response`: split the response on
`EVENT_START` and collect the events of the parseable blocks. -/
def parse_openai_response (text source_url : String) : List EventRec :=
  (pySplit text "EVENT_START").filterMap (parseBlock source_url)

/-- Stored row of the `events` table (`database.EventDB`; the
auto-increment `id` is the list position and is not modelled). -/
structure Row where
  title : String
  date : Option Date
  location : String
  source_url : String
  deriving DecidableEq, Repr

/-- Incoming event dictionary as `crud.save_events` reads it: `title`
is required, the other keys are read with `.get` defaults. -/
structure EventData where
  title : String
  date : Option Date
  location : Option String
  url : Option String
  deriving DecidableEq, Repr

/-- Row built by `crud.py` lines 39-44 (`EventDB(...)` with the
`.get` defaults). -/
def mkRow (ed : EventData) : Row :=
  { title := ed.title, date := ed.date,
    location := ed.location.getD "unbekannt",
    source_url := ed.url.getD "" }

/-- Duplicate test of `crud.py` lines 32-35: equal `title` and equal
`source_url` (the incoming URL defaulted to the empty string). -/
def dupOf (ed : EventData) (r : Row) : Bool :=
  r.title == ed.title && r.source_url == ed.url.getD ""

/-- One iteration of the save loop: skip when a visible row matches,
else add the new row. Under the SQLAlchemy default `autoflush=True` the
lookup query flushes pending adds first, so rows added earlier in the
same call are visible to it. -/
def saveStep (st : List Row) (ed : EventData) : List Row :=
  if st.any (dupOf ed) then st else st ++ [mkRow ed]

/-- Model of a successful `crud.save_events` call: the committed store
after the loop and the final `session.commit()`. -/
def save_events (store : List Row) (events : List EventData) : List Row :=
  events.foldl saveStep store

/-- Executable run of one `crud.save_events` call with fault
injection: `failAt i` says an exception is raised at step `i` (steps
`0..batch.length - 1` are the loop iterations, step `batch.length` is
the final commit). Pending adds live in `pending` and reach the
committed store only at the commit; an exception triggers
`session.rollback()`, discarding `pending`, and is re-raised, which
the model returns as `Except.error` carrying the committed store. -/
def saveGo (failAt : Nat → Bool) :
    List Row → List Row → List EventData → Nat → Except (List Row) (List Row)
  | committed, pending, todo, i =>
    if failAt i then Except.error committed
    else
      match todo with
      | [] => Except.ok (committed ++ pending)
      | ed :: rest =>
        saveGo failAt committed
          (if (committed ++ pending).any (dupOf ed) then pending
           else pending ++ [mkRow ed])
          rest (i + 1)

/-- Model of `crud.save_events` with fault injection. -/
def save_events_run (failAt : Nat → Bool) (store : List Row)
    (batch : List EventData) : Except (List Row) (List Row) :=
  saveGo failAt store [] batch 0

/-- No two rows share both `title` and `source_url`. -/
def NoDupKeys (rows : List Row) : Prop :=
  rows.Pairwise (fun a b => ¬(a.title = b.title ∧ a.source_url = b.source_url))

/-- Truncation of `app.py` lines 169-171. -/
def truncateContent (html : String) : String :=
  if 20000 < html.length then String.mk (html.data.take 20000) else html

/-- Model of `app.extract_events_with_openai`: the external chat
completion is a parameter `api` from the (truncated) page text to
either a response text or a raised error; the surrounding
try/except returns `[]` on any raise (`app.py` lines 209-211). -/
def extract_events_with_openai (api : String → Except String String)
    (html_content source_url : String) : List EventRec :=
  match api (truncateContent html_content) with
  | Except.ok resp => parse_openai_response resp source_url
  | Except.error _ => []

/-- The fixed guidance reply of `app.py` lines 123-125. -/
def guidance_reply : String :=
  "No events in database. Please click \x27Refresh Events\x27 to crawl first."

/-- Two-digit zero padding for `strftime("%d.%m.%Y")`. -/
def pad2 (n : Nat) : String := if n < 10 then "0" ++ toString n else toString n

/-- Python `date.strftime("%d.%m.%Y")` for the years this code
produces. -/
def strftime_dmY (d : Date) : String :=
  pad2 d.day ++ "." ++ pad2 d.month ++ "." ++ toString d.year

/-- One line of the event listing of `app.py` lines 128-132. -/
def format_event_line (e : Row) : String :=
  "- " ++ e.title ++ " on " ++
  (match e.date with
   | some d => strftime_dmY d
   | none => "Date unknown") ++
  " in " ++ e.location ++ " (Link: " ++ e.source_url ++ ")"

/-- Python `"\n".join`. -/
def joinSep (sep : String) : List String → String
  | [] => ""
  | [s] => s
  | s :: rest => s ++ sep ++ joinSep sep rest

/-- The user turn sent by `app.search_events` (`app.py` line 146). -/
def user_prompt (message : String) (events : List Row) : String :=
  "Question: " ++ message ++ "\n\nEvents:\n" ++
  joinSep "\n" (events.map format_event_line)

/-- Model of the `POST /api` handler `app.search_events` over already
loaded events: the result records whether the external API was called
and the reply text; with no stored events the guard returns the fixed
guidance reply before any API call is built. -/
def search_events (api : String → String) (events : List Row)
    (message : String) : Bool × String :=
  if events.isEmpty then (false, guidance_reply)
  else (true, api (user_prompt message events))

/-- State threaded through the seed loop of `app.crawl_all`:
accumulated events, per-seed error strings, and a log of the
extraction calls issued (page text, seed URL). -/
structure CrawlState where
  all_events : List EventRec
  errors : List String
  calls : List (String × String)
  deriving Repr

/-- One iteration of the seed loop of `app.py` lines 63-92: fetch the
seed (the crawler catches its own failures and returns `""`), record
an `Insufficient content` error for empty or short content and skip
extraction, else extract and accumulate. Extending by an empty
extraction result is the identity, matching the `if events:` guard.
The guard `insufficientContent` is
`if not html_content or len(html_content) < 100` of `app.py` line 70. -/
def insufficientContent (html : String) : Bool :=
  html == "" || decide (html.length < 100)

/-- One iteration of the seed loop dispatching on the guard. -/
def crawlStep (fetch : String → String) (api : String → Except String String)
    (st : CrawlState) (url : String) : CrawlState :=
  if insufficientContent (fetch url) then
    { st with errors := st.errors ++ [url ++ ": Insufficient content"] }
  else
    { st with
      all_events := st.all_events ++ extract_events_with_openai api (fetch url) url,
      calls := st.calls ++ [(fetch url, url)] }

/-- Model of the `GET /crawl` cycle `app.crawl_all` up to the save:
the final state holds the batch handed to `save_events` (when
nonempty) and the error summary. -/
def crawl_all (fetch : String → String) (api : String → Except String String)
    (urls : List String) : CrawlState :=
  urls.foldl (crawlStep fetch api) ⟨[], [], []⟩

/-- Spec-side view of one parsed block: each field is the fold of its
lines of its own label only, so a field is determined by the subsequence of
lines carrying its label and lines with distinct labels commute. -/
def fieldsView (e : EventRec) (ls : List String) : EventRec :=
  { title := (ls.filter isTitelLine).foldl (fun _ raw => some (titelVal raw)) e.title,
    date := (ls.filter isDatumLine).foldl datumApply e.date,
    location := (ls.filter isOrtLine).foldl ortApply e.location,
    url := e.url }

/-- Lists starting with distinct characters are not prefixes of the
same list. -/
theorem leadsWith_excl {p q : Char} {ps qs s : List Char} (hpq : p ≠ q)
    (h : leadsWith (p :: ps) s = true) : leadsWith (q :: qs) s = false := by
  cases s with
  | nil => cases h
  | cons c cs =>
    simp only [leadsWith, Bool.and_eq_true, beq_iff_eq] at h
    have hqc : q ≠ c := fun hq => hpq (h.1 ▸ hq ▸ rfl)
    simp [leadsWith, hqc]

/-- A `TITEL:` line is not a `DATUM:` line. -/
theorem titel_not_datum (l : String) (h : isTitelLine l = true) :
    isDatumLine l = false := by
  have hT : "TITEL:".data = 'T' :: "ITEL:".data := rfl
  have hD : "DATUM:".data = 'D' :: "ATUM:".data := rfl
  unfold isTitelLine pyStartsWith at h
  unfold isDatumLine pyStartsWith
  rw [hT] at h
  rw [hD]
  exact leadsWith_excl (by decide) h

/-- A `TITEL:` line is not an `ORT:` line. -/
theorem titel_not_ort (l : String) (h : isTitelLine l = true) :
    isOrtLine l = false := by
  have hT : "TITEL:".data = 'T' :: "ITEL:".data := rfl
  have hO : "ORT:".data = 'O' :: "RT:".data := rfl
  unfold isTitelLine pyStartsWith at h
  unfold isOrtLine pyStartsWith
  rw [hT] at h
  rw [hO]
  exact leadsWith_excl (by decide) h

/-- A `DATUM:` line is not an `ORT:` line. -/
theorem datum_not_ort (l : String) (h : isDatumLine l = true) :
    isOrtLine l = false := by
  have hD : "DATUM:".data = 'D' :: "ATUM:".data := rfl
  have hO : "ORT:".data = 'O' :: "RT:".data := rfl
  unfold isDatumLine pyStartsWith at h
  unfold isOrtLine pyStartsWith
  rw [hD] at h
  rw [hO]
  exact leadsWith_excl (by decide) h

/-- The line loop computes exactly the per-label view: folding
`processLine` equals folding the lines of each label into its own field. -/
theorem foldl_processLine_view (ls : List String) :
    ∀ e : EventRec, ls.foldl processLine e = fieldsView e ls := by
  induction ls with
  | nil => intro e; rfl
  | cons raw rest ih =>
    intro e
    rw [List.foldl_cons, ih]
    by_cases h1 : isTitelLine raw = true
    · have h2 := titel_not_datum raw h1
      have h3 := titel_not_ort raw h1
      simp [fieldsView, processLine, h1, h2, h3, List.filter_cons]
    · rw [Bool.not_eq_true] at h1
      by_cases h2 : isDatumLine raw = true
      · have h3 := datum_not_ort raw h2
        simp [fieldsView, processLine, h1, h2, h3, List.filter_cons]
      · rw [Bool.not_eq_true] at h2
        by_cases h3 : isOrtLine raw = true
        · simp [fieldsView, processLine, h1, h2, h3, List.filter_cons]
        · rw [Bool.not_eq_true] at h3
          simp [fieldsView, processLine, h1, h2, h3, List.filter_cons]

/-- The line loop never touches the `url` field. -/
theorem foldl_processLine_url (ls : List String) (e : EventRec) :
    (ls.foldl processLine e).url = e.url := by
  rw [foldl_processLine_view]
  rfl

/-- C2: for every URL string, `_should_include_page` returns true iff
the URL is non-empty, its lower-cased form contains no deny-list
pattern, and it contains at least one allow-list pattern; a deny-list
hit forces false regardless of allow-list hits, a URL matching neither
list is rejected, and the empty URL is rejected. -/
theorem should_include_page_iff (url : String) :
    should_include_page url = true ↔
      url ≠ "" ∧ (∀ p ∈ denied_patterns, pyContains (pyLower url) p = false) ∧
      (∃ p ∈ allowed_signals, pyContains (pyLower url) p = true) := by
  simp only [should_include_page]
  by_cases h0 : url = ""
  · simp [h0]
  · have h0' : (url == "") = false := beq_eq_false_iff_ne.mpr h0
    simp only [h0', Bool.false_eq_true, if_false]
    by_cases hd : denied_patterns.any (fun p => pyContains (pyLower url) p) = true
    · simp only [hd, if_true]
      constructor
      · intro hc; exact absurd hc (by simp)
      · rintro ⟨-, hall, -⟩
        rcases List.any_eq_true.mp hd with ⟨p, hp, hc⟩
        rw [hall p hp] at hc
        cases hc
    · rw [Bool.not_eq_true] at hd
      simp only [hd, Bool.false_eq_true, if_false]
      rw [List.any_eq_true]
      constructor
      · rintro ⟨p, hp, hc⟩
        refine ⟨h0, ?_, ⟨p, hp, hc⟩⟩
        intro q hq
        rcases Bool.eq_false_or_eq_true (pyContains (pyLower url) q) with h | h
        · exact absurd (List.any_eq_true.mpr ⟨q, hq, h⟩) (by simp [hd])
        · exact h
      · rintro ⟨-, -, p, hp, hc⟩
        exact ⟨p, hp, hc⟩

/-- C3 counterexample: in a block whose `TITEL:` label occurs on two
lines, the parser keeps the value of the last matching line (`B`), not
the first one (`A`) as the claim states. -/
theorem parse_first_line_cex :
    parse_openai_response "EVENT_START\nTITEL: A\nTITEL: B\nEVENT_END" "u" =
      [{ title := some "B", date := none, location := "unbekannt", url := "u" }] ∧
    (parse_openai_response "EVENT_START\nTITEL: A\nTITEL: B\nEVENT_END" "u").map
        EventRec.title ≠ [some "A"] := by
  exact ⟨by decide, by decide⟩

/-- C3 (amended): within a block, each labeled field is determined by
the subsequence of lines carrying its own label — the title by the
last `TITEL:` line, the date by the `DATUM:` lines folded left to
right (the last successfully parsed value wins), the location by the
`ORT:` lines (the last value other than `unbekannt` wins) — so
reordering lines with distinct labels does not change the resulting
event, and a field with no matching line keeps its default. -/
theorem parse_fields_per_label (ls : List String) (e : EventRec) :
    ls.foldl processLine e = fieldsView e ls :=
  foldl_processLine_view ls e

/-- C5: the `DATUM:` value is parsed by first attempting the
four-digit-year format, on its failure the two-digit-year format, and
on failure of both the date is left unchanged (unset when previously
unset) instead of an error; `24.12.2025` and `24.12.25` both give
24 December 2025 and `TBD` leaves the date unset. -/
theorem date_parse_cascade :
    (∀ s : String, (strptime_dmY s).isSome = true → tryParseDate s = strptime_dmY s) ∧
    (∀ s : String, strptime_dmY s = none → tryParseDate s = strptime_dmy s) ∧
    datumApply none "DATUM: 24.12.2025" = some ⟨2025, 12, 24⟩ ∧
    datumApply none "DATUM: 24.12.25" = some ⟨2025, 12, 24⟩ ∧
    datumApply none "DATUM: TBD" = none := by
  refine ⟨?_, ?_, by decide, by decide, by decide⟩
  · intro s h
    unfold tryParseDate
    cases heq : strptime_dmY s with
    | some d => rfl
    | none => rw [heq] at h; cases h
  · intro s h
    unfold tryParseDate
    rw [h]

/-- Witness for the cascade order at concrete inputs. -/
theorem date_parse_cascade_witness :
    tryParseDate "24.12.2025" = strptime_dmY "24.12.2025" ∧
    tryParseDate "TBD" = strptime_dmy "TBD" :=
  ⟨date_parse_cascade.1 "24.12.2025" (by decide),
   date_parse_cascade.2.1 "TBD" (by decide)⟩

/-- C6: a `DATUM:` range keeps only the start date: the range
`24.12.2025-06.01.2026` yields 24 December 2025, both through the full
parser on a block and through the `DATUM:` value handler from any
prior date value. -/
theorem date_range_start_only :
    parse_openai_response
        "EVENT_START\nTITEL: X\nDATUM: 24.12.2025-06.01.2026\nEVENT_END" "u" =
      [{ title := some "X", date := some ⟨2025, 12, 24⟩,
         location := "unbekannt", url := "u" }] ∧
    (∀ d0 : Option Date,
       datumValApply d0 "24.12.2025-06.01.2026" = some ⟨2025, 12, 24⟩) := by
  refine ⟨by decide, fun d0 => ?_⟩
  have h1 : (pyLower "24.12.2025-06.01.2026" == "unbekannt") = false := by decide
  have h2 : (pyContains "24.12.2025-06.01.2026" "-" &&
             pyContains "24.12.2025-06.01.2026" ".") = true := by decide
  have h3 : tryParseDate
      (pyStrip ((pySplit "24.12.2025-06.01.2026" "-").head?.getD "")) =
      some ⟨2025, 12, 24⟩ := by decide
  simp [datumValApply, h1, h2, h3]

/-- Folding `TITEL:` lines whose extracted values are all empty never
produces a non-empty title. -/
theorem titleFold_all_empty :
    ∀ tls : List String, (∀ l ∈ tls, titelVal l = "") →
    ∀ t0 : Option String, (t0 = none ∨ t0 = some "") →
    (tls.foldl (fun _ raw => some (titelVal raw)) t0 = none ∨
     tls.foldl (fun _ raw => some (titelVal raw)) t0 = some "") := by
  intro tls
  induction tls with
  | nil => intro _ t0 h0; exact h0
  | cons x xs ih =>
    intro h t0 _
    rw [List.foldl_cons]
    exact ih (fun l hl => h l (List.mem_cons_of_mem x hl)) _
      (Or.inr (by rw [h x (List.mem_cons_self x xs)]))

/-- C7: a block whose lines never produce a non-empty title yields no
event, while a block consisting of a single `TITEL:` line with a
non-empty value yields exactly one event carrying that title, the
default location `unbekannt`, no date, and the given source URL. -/
theorem block_title_guard :
    (∀ (src : String) (ls : List String),
       (∀ l ∈ ls, isTitelLine l = false ∨ titelVal l = "") →
       parseBlockLines src ls = none) ∧
    (∀ src raw : String, isTitelLine raw = true → titelVal raw ≠ "" →
       parseBlockLines src [raw] =
         some { title := some (titelVal raw), date := none,
                location := "unbekannt", url := src }) := by
  constructor
  · intro src ls h
    have hall : ∀ l ∈ ls.filter isTitelLine, titelVal l = "" := by
      intro l hl
      rcases List.mem_filter.mp hl with ⟨hmem, hlab⟩
      rcases h l hmem with h' | h'
      · rw [h'] at hlab; cases hlab
      · exact h'
    have htitle : (ls.foldl processLine (initEvent src)).title = none ∨
        (ls.foldl processLine (initEvent src)).title = some "" := by
      rw [foldl_processLine_view]
      exact titleFold_all_empty (ls.filter isTitelLine) hall none (Or.inl rfl)
    rcases htitle with ht | ht
    · simp [parseBlockLines, ht]
    · simp [parseBlockLines, ht]
  · intro src raw h hne
    simp [parseBlockLines, processLine, h, initEvent, hne]

/-- Witness for the title guard at concrete blocks. -/
theorem block_title_guard_witness :
    parseBlockLines "u" ["ORT: Halle", "DATUM: 24.12.2025"] = none ∧
    parseBlockLines "u" ["TITEL: Stadtfest"] =
      some { title := some "Stadtfest", date := none,
             location := "unbekannt", url := "u" } :=
  ⟨block_title_guard.1 "u" ["ORT: Halle", "DATUM: 24.12.2025"] (by decide),
   block_title_guard.2 "u" "TITEL: Stadtfest" (by decide) (by decide)⟩

/-- Appending a row whose key clashes with no existing row preserves
key distinctness. -/
theorem saveStep_nodup {st : List Row} (h : NoDupKeys st) (ed : EventData) :
    NoDupKeys (saveStep st ed) := by
  unfold saveStep
  by_cases ha : st.any (dupOf ed) = true
  · simp only [ha, if_true]; exact h
  · rw [Bool.not_eq_true] at ha
    simp only [ha, Bool.false_eq_true, if_false]
    unfold NoDupKeys at h ⊢
    rw [List.pairwise_append]
    refine ⟨h, List.pairwise_singleton _ _, ?_⟩
    intro a hmem b hb
    rw [List.mem_singleton] at hb
    subst hb
    rintro ⟨ht, hu⟩
    have : st.any (dupOf ed) = true := by
      rw [List.any_eq_true]
      refine ⟨a, hmem, ?_⟩
      simp only [mkRow] at ht hu
      simp [dupOf, ht, hu]
    rw [this] at ha
    cases ha

/-- One save call preserves key distinctness of the store. -/
theorem save_events_nodup :
    ∀ (evs : List EventData) (st : List Row),
      NoDupKeys st → NoDupKeys (save_events st evs) := by
  intro evs
  induction evs with
  | nil => intro st h; exact h
  | cons ed rest ih =>
    intro st h
    rw [save_events, List.foldl_cons]
    exact ih (saveStep st ed) (saveStep_nodup h ed)

/-- C1: starting from an empty store, any sequence of save calls
leaves a store in which no two rows share both `title` and
`source_url`; in particular saving two events carrying the same
(title, url) key in two separate calls leaves exactly one stored row,
the second call skipping it as a duplicate. -/
theorem save_events_dedup :
    (∀ batches : List (List EventData), NoDupKeys (batches.foldl save_events [])) ∧
    (∀ e1 e2 : EventData, e1.title = e2.title → e1.url.getD "" = e2.url.getD "" →
       save_events (save_events [] [e1]) [e2] = [mkRow e1]) := by
  constructor
  · have gen : ∀ (batches : List (List EventData)) (st : List Row),
        NoDupKeys st → NoDupKeys (batches.foldl save_events st) := by
      intro batches
      induction batches with
      | nil => intro st h; exact h
      | cons b rest ih =>
        intro st h
        rw [List.foldl_cons]
        exact ih (save_events st b) (save_events_nodup b st h)
    intro batches
    exact gen batches [] List.Pairwise.nil
  · intro e1 e2 h1 h2
    have hstep1 : save_events [] [e1] = [mkRow e1] := by
      simp [save_events, saveStep]
    have hdup : dupOf e2 (mkRow e1) = true := by
      simp [dupOf, mkRow, h1, h2]
    rw [hstep1]
    simp [save_events, saveStep, hdup]

/-- Witness: the same (title, url) key saved in two separate calls,
with differing optional fields, stores exactly one row. -/
theorem save_events_dedup_witness :
    save_events
        (save_events []
          [{ title := "Stadtfest", date := none, location := none, url := some "u" }])
        [{ title := "Stadtfest", date := some ⟨2025, 12, 24⟩,
           location := some "Halle", url := some "u" }] =
      [mkRow { title := "Stadtfest", date := none, location := none, url := some "u" }] :=
  save_events_dedup.2 _ _ rfl rfl

/-- Relation of the fault-injected run to the committed store: an
`ok` outcome carries exactly the batch applied to the visible store,
an `error` outcome carries the store unchanged. -/
theorem saveGo_spec (failAt : Nat → Bool) :
    ∀ (todo : List EventData) (committed pending : List Row) (i : Nat),
      (match saveGo failAt committed pending todo i with
       | Except.ok st => st = save_events (committed ++ pending) todo
       | Except.error st => st = committed) := by
  intro todo
  induction todo with
  | nil =>
    intro c p i
    unfold saveGo
    by_cases hf : failAt i = true
    · simp [hf]
    · rw [Bool.not_eq_true] at hf
      simp [hf, save_events]
  | cons ed rest ih =>
    intro c p i
    unfold saveGo
    by_cases hf : failAt i = true
    · simp [hf]
    · rw [Bool.not_eq_true] at hf
      simp only [hf, Bool.false_eq_true, if_false]
      have hrw : c ++ (if (c ++ p).any (dupOf ed) then p else p ++ [mkRow ed]) =
          saveStep (c ++ p) ed := by
        by_cases ha : (c ++ p).any (dupOf ed) = true
        · simp [saveStep, ha]
        · rw [Bool.not_eq_true] at ha
          simp [saveStep, ha, List.append_assoc]
      have hse : save_events (c ++ p) (ed :: rest) =
          save_events (saveStep (c ++ p) ed) rest := by
        simp [save_events]
      have := ih c (if (c ++ p).any (dupOf ed) then p else p ++ [mkRow ed]) (i + 1)
      rw [hrw] at this
      rw [hse]
      exact this

/-- C4: a `save_events` call is atomic: when no exception fires the
call commits exactly the batch folded over the store; when an
exception fires at any loop step or at the commit, the rollback
leaves the committed store unchanged (zero rows from that call) and
the exception is re-raised as the `error` outcome. -/
theorem save_events_atomic (failAt : Nat → Bool) (store : List Row)
    (batch : List EventData) :
    (match save_events_run failAt store batch with
     | Except.ok st => st = save_events store batch
     | Except.error st => st = store) := by
  have h := saveGo_spec failAt batch store [] 0
  rw [List.append_nil] at h
  exact h

/-- C8: with an empty event sequence the query handler returns the
fixed guidance reply and issues no external API call, for every
question and every behaviour of the external API. -/
theorem answer_empty_guidance (api : String → String) (message : String) :
    search_events api [] message = (false, guidance_reply) := rfl

/-- C9: when the external call raises, the extraction adapter returns
the empty event sequence instead of propagating the error (as a total
function it never raises at all). -/
theorem extract_api_error_empty (api : String → Except String String)
    (html_content source_url msg : String)
    (h : api (truncateContent html_content) = Except.error msg) :
    extract_events_with_openai api html_content source_url = [] := by
  unfold extract_events_with_openai
  rw [h]

/-- Witness: a failing API call on a concrete page yields no events. -/
theorem extract_api_error_empty_witness :
    extract_events_with_openai (fun _ => Except.error "boom")
      "long page content" "https://example.org" = [] :=
  extract_api_error_empty (fun _ => Except.error "boom")
    "long page content" "https://example.org" "boom" rfl

/-- Every event produced by one block parse carries the source URL. -/
theorem parseBlockLines_url (u : String) (ls : List String) (e : EventRec)
    (h : parseBlockLines u ls = some e) : e.url = u := by
  unfold parseBlockLines at h
  rcases htt : (ls.foldl processLine (initEvent u)).title with _ | t
  · simp only [htt] at h
    exact Option.noConfusion h
  · simp only [htt] at h
    by_cases hne : t = ""
    · simp [hne] at h
    · rw [if_pos hne] at h
      injection h with h
      rw [← h, foldl_processLine_url]
      rfl

/-- Every event produced by the response parser carries the source
URL it was called with. -/
theorem parse_openai_response_url (resp u : String) :
    ∀ e ∈ parse_openai_response resp u, e.url = u := by
  intro e he
  unfold parse_openai_response at he
  rcases List.mem_filterMap.mp he with ⟨b, -, hb⟩
  unfold parseBlock at hb
  by_cases hc : pyContains b "EVENT_END" = true
  · rw [if_pos hc] at hb
    exact parseBlockLines_url _ _ _ hb
  · rw [Bool.not_eq_true] at hc
    simp [hc] at hb

/-- Every event produced by the extraction adapter carries the source
URL it was called with. -/
theorem extract_url_eq (api : String → Except String String) (html u : String) :
    ∀ e ∈ extract_events_with_openai api html u, e.url = u := by
  intro e he
  unfold extract_events_with_openai at he
  cases hres : api (truncateContent html) with
  | error msg => rw [hres] at he; simp at he
  | ok resp =>
    rw [hres] at he
    exact parse_openai_response_url resp u e he

/-- Error strings survive the rest of the seed loop. -/
theorem crawl_errors_mono (fetch : String → String)
    (api : String → Except String String) :
    ∀ (urls : List String) (st : CrawlState) (msg : String),
      msg ∈ st.errors → msg ∈ (urls.foldl (crawlStep fetch api) st).errors := by
  intro urls
  induction urls with
  | nil => intro st msg h; exact h
  | cons u rest ih =>
    intro st msg h
    rw [List.foldl_cons]
    apply ih
    unfold crawlStep
    by_cases hu : insufficientContent (fetch u) = true
    · simp only [hu, if_true]
      exact List.mem_append_left _ h
    · rw [Bool.not_eq_true] at hu
      simp only [hu, Bool.false_eq_true, if_false]
      exact h

/-- A seed with insufficient content is recorded in the error
summary. -/
theorem crawl_error_recorded (fetch : String → String)
    (api : String → Except String String) :
    ∀ (urls : List String) (st : CrawlState) (url : String),
      url ∈ urls → insufficientContent (fetch url) = true →
      (url ++ ": Insufficient content") ∈
        (urls.foldl (crawlStep fetch api) st).errors := by
  intro urls
  induction urls with
  | nil => intro st url h; cases h
  | cons u rest ih =>
    intro st url hmem hI
    rw [List.foldl_cons]
    rcases List.mem_cons.mp hmem with rfl | hmem'
    · apply crawl_errors_mono
      simp only [crawlStep, hI, if_true]
      exact List.mem_append_right _ (List.mem_singleton.mpr rfl)
    · exact ih _ url hmem' hI

/-- A seed with insufficient content triggers no extraction call over
the whole loop. -/
theorem crawl_calls_skip (fetch : String → String)
    (api : String → Except String String) :
    ∀ (urls : List String) (st : CrawlState) (url : String),
      insufficientContent (fetch url) = true →
      (∀ html, (html, url) ∉ st.calls) →
      ∀ html, (html, url) ∉ (urls.foldl (crawlStep fetch api) st).calls := by
  intro urls
  induction urls with
  | nil => intro st url _ h html; exact h html
  | cons u rest ih =>
    intro st url hI h
    rw [List.foldl_cons]
    apply ih _ url hI
    intro html
    unfold crawlStep
    by_cases hu : insufficientContent (fetch u) = true
    · simp only [hu, if_true]
      exact h html
    · rw [Bool.not_eq_true] at hu
      simp only [hu, Bool.false_eq_true, if_false]
      intro hc
      rcases List.mem_append.mp hc with hc | hc
      · exact h html hc
      · rw [List.mem_singleton, Prod.mk.injEq] at hc
        rw [hc.2] at hI
        rw [hI] at hu
        cases hu

/-- A seed with insufficient content contributes no event to the
accumulated batch over the whole loop. -/
theorem crawl_events_skip (fetch : String → String)
    (api : String → Except String String) :
    ∀ (urls : List String) (st : CrawlState) (url : String),
      insufficientContent (fetch url) = true →
      (∀ e ∈ st.all_events, e.url ≠ url) →
      ∀ e ∈ (urls.foldl (crawlStep fetch api) st).all_events, e.url ≠ url := by
  intro urls
  induction urls with
  | nil => intro st url _ h; exact h
  | cons u rest ih =>
    intro st url hI h
    rw [List.foldl_cons]
    apply ih _ url hI
    intro e
    unfold crawlStep
    by_cases hu : insufficientContent (fetch u) = true
    · simp only [hu, if_true]
      exact h e
    · rw [Bool.not_eq_true] at hu
      simp only [hu, Bool.false_eq_true, if_false]
      intro hc
      rcases List.mem_append.mp hc with hc | hc
      · exact h e hc
      · have heu : e.url = u := extract_url_eq api (fetch u) u e hc
        rw [heu]
        intro hx
        rw [hx] at hu
        rw [hI] at hu
        cases hu

/-- C10: in the crawl cycle, a seed whose crawled content is empty or
shorter than 100 characters is recorded as an `Insufficient content`
error string in the summary, no extraction call is issued for it, and
it contributes zero events to the batch handed to the save. -/
theorem short_seed_skipped (fetch : String → String)
    (api : String → Except String String) (urls : List String) (url : String)
    (hmem : url ∈ urls)
    (hshort : fetch url = "" ∨ (fetch url).length < 100) :
    (url ++ ": Insufficient content") ∈ (crawl_all fetch api urls).errors ∧
    (∀ html, (html, url) ∉ (crawl_all fetch api urls).calls) ∧
    (∀ e ∈ (crawl_all fetch api urls).all_events, e.url ≠ url) := by
  have hI : insufficientContent (fetch url) = true := by
    unfold insufficientContent
    rcases hshort with h | h
    · simp [h]
    · simp [h]
  refine ⟨?_, ?_, ?_⟩
  · exact crawl_error_recorded fetch api urls ⟨[], [], []⟩ url hmem hI
  · exact crawl_calls_skip fetch api urls ⟨[], [], []⟩ url hI
      (by intro html h; cases h)
  · exact crawl_events_skip fetch api urls ⟨[], [], []⟩ url hI
      (by intro e he; cases he)

/-- Witness: a seed crawling to the empty string is recorded, skipped
and contributes nothing. -/
theorem short_seed_skipped_witness :
    ("https://example.org" ++ ": Insufficient content") ∈
      (crawl_all (fun _ => "") (fun _ => Except.ok "") ["https://example.org"]).errors ∧
    (∀ html, (html, "https://example.org") ∉
      (crawl_all (fun _ => "") (fun _ => Except.ok "") ["https://example.org"]).calls) ∧
    (∀ e ∈ (crawl_all (fun _ => "") (fun _ => Except.ok "") ["https://example.org"]).all_events,
      e.url ≠ "https://example.org") :=
  short_seed_skipped (fun _ => "") (fun _ => Except.ok "")
    ["https://example.org"] "https://example.org"
    (List.mem_singleton.mpr rfl) (Or.inl rfl)
